import Mathlib

/-!
# Verification of the zone-entry alert core of `app_vp01r02.py`

Shallow embedding of the person-in-zone alert program (YOLO detection +
DeepSort tracking + zone-entry alarm).  The detector and tracker are
opaque collaborators: we model only the data they hand to the core
(raw detections with class/confidence, tracks with a confirmation flag,
an identity and a bounding box), and embed the core logic of
`processar_video` and `tocar_alarme` directly from the source.

Pixel coordinates are modelled as `ℤ` (the Python code applies `int(...)`
to every coordinate), Python's floor division `//` as `Int.fdiv`.
Confidences are modelled as exact rationals `ℚ`; comparing two Python
floats with `>` coincides with comparing their exact rational values.
Track identities are modelled as `ℕ`.
-/

namespace VP01

/-- The fixed axis-aligned "zona de saída" rectangle
`(saida_x1, saida_y1)-(saida_x2, saida_y2)`, computed once at stream
start from the frame dimensions. -/
structure Zone where
  x1 : ℤ
  y1 : ℤ
  x2 : ℤ
  y2 : ℤ
  deriving DecidableEq, Repr

/-- A bounding box in (left, top, right, bottom) form, as returned by
`map(int, track.to_ltrb())`. -/
structure Box where
  left : ℤ
  top : ℤ
  right : ℤ
  bottom : ℤ
  deriving DecidableEq, Repr

/-- `centro_x = x1 + (x2 - x1) // 2` (source line 119; Python `//` is
floor division, hence `Int.fdiv`). -/
def centro_x (b : Box) : ℤ := b.left + Int.fdiv (b.right - b.left) 2

/-- `centro_y = y1 + (y2 - y1) // 2` (source line 120). -/
def centro_y (b : Box) : ℤ := b.top + Int.fdiv (b.bottom - b.top) 2

/-- The zone predicate of source line 121:
`(saida_x1 < centro_x < saida_x2) and (saida_y1 < centro_y < saida_y2)`
(Python chained comparisons, all strict). -/
def in_zone (b : Box) (z : Zone) : Bool :=
  (z.x1 < centro_x b && centro_x b < z.x2) &&
  (z.y1 < centro_y b && centro_y b < z.y2)

/-- A track as reported by the DeepSort tracker: confirmation status
(`track.is_confirmed()`), stable identity (`track.track_id`) and the
current bounding box (`track.to_ltrb()`). -/
structure Track where
  confirmed : Bool
  track_id : ℕ
  box : Box
  deriving DecidableEq, Repr

/-- The state owned by the frame loop: the `pessoas_na_zona` ledger
(a Python `set()` of already-alerted identities) together with the log
of alert dispatches performed so far (each `print` + alarm-thread start
appends the triggering identity). -/
structure LoopState where
  pessoas_na_zona : Finset ℕ
  alerts : List ℕ
  deriving DecidableEq

/-- The per-track body of the loop over `track_objects`
(source lines 104-126): skip unconfirmed tracks; otherwise, if the
centroid is in the zone and the id is not yet in `pessoas_na_zona`,
dispatch an alert and insert the id. -/
def processTrack (z : Zone) (st : LoopState) (t : Track) : LoopState :=
  if t.confirmed = false then st
  else if in_zone t.box z then
    if t.track_id ∈ st.pessoas_na_zona then st
    else ⟨insert t.track_id st.pessoas_na_zona, st.alerts ++ [t.track_id]⟩
  else st

/-- One frame's pass over the track list (`for track in track_objects`). -/
def processFrame (z : Zone) (st : LoopState) (tracks : List Track) : LoopState :=
  tracks.foldl (processTrack z) st

/-- The frame loop's effect on the core state over a whole stream of
frames (each frame contributing its list of tracks), when no stop signal
occurs. -/
def processStream (z : Zone) (st : LoopState) (frames : List (List Track)) : LoopState :=
  frames.foldl (processFrame z) st

/-- The state at stream start: `pessoas_na_zona = set()` (source line 65)
and no dispatches yet. -/
def initState : LoopState := ⟨∅, []⟩

/-- One decoded frame of the stream, abstracted to what the core reads
from it: the tracks the tracker reports for it, and whether the user
pressed the quit key during that iteration (`cv2.waitKey(1) ... == ord('q')`). -/
structure Frame where
  tracks : List Track
  quit : Bool
  deriving DecidableEq

/-- The `while cap.isOpened()` loop (source lines 76-132) acting on the
core state: each iteration processes a decoded frame's tracks, then
shows and writes the annotated frame (`cv2.imshow`, `out.write` —
counted in the second component), and only then checks the quit key and
breaks.  The input list holds the frames the capture would decode if
read to exhaustion. -/
def frameLoop (z : Zone) (st : LoopState) : List Frame → LoopState × ℕ
  | [] => (st, 0)
  | f :: rest =>
      let st' := processFrame z st f.tracks
      if f.quit then (st', 1)
      else
        let r := frameLoop z st' rest
        (r.1, r.2 + 1)

/-- The frames the loop actually decodes: everything up to and including
the first frame during which the quit key is pressed. -/
def decodedFrames : List Frame → List Frame
  | [] => []
  | f :: rest => if f.quit then [f] else f :: decodedFrames rest

/-- Outcome of one call to `processar_video`: whether startup aborted
before the loop (`cap.isOpened()` false), how many frames were written
to the output sink, and the final core state. -/
structure VideoRun where
  startupFailed : Bool
  framesWritten : ℕ
  finalState : LoopState
  deriving DecidableEq

/-- `processar_video` (source lines 33-137) at the level of the core:
if the capture fails to open, print and return before the loop
(lines 46-49); otherwise create the writer — whose open status is
**never checked** by the source, hence the `writerOpened` argument is
read nowhere — initialise `pessoas_na_zona = set()` and run the frame
loop. -/
def processar_video (capOpened writerOpened : Bool) (z : Zone)
    (frames : List Frame) : VideoRun :=
  if capOpened = false then ⟨true, 0, initState⟩
  else
    let _ := writerOpened
    let r := frameLoop z initState frames
    ⟨false, r.2, r.1⟩

/-- `tocar_alarme` (source lines 23-27): try to load and play the sound;
any exception is caught and printed.  The argument is the outcome of
`pygame.mixer.Sound(...).play()`; the result is the line the function
leaves behind (normal return in both branches — no exception escapes,
hence the result type carries no error). -/
def tocar_alarme (play : Except String Unit) : String :=
  match play with
  | Except.ok _ => "played"
  | Except.error e => "Erro ao tocar o alarme: " ++ e

/-- The per-track loop body with the audio side effect made explicit:
on a qualifying transition the alarm thread runs `tocar_alarme`, whose
outcome (`play tid`, possibly a failure) is recorded in a log.  The
ledger update and dispatch decision are exactly those of `processTrack`;
the play outcome is consulted only inside `tocar_alarme`. -/
def processTrackAudio (z : Zone) (play : ℕ → Except String Unit)
    (st : LoopState × List String) (t : Track) : LoopState × List String :=
  if t.confirmed = false then st
  else if in_zone t.box z then
    if t.track_id ∈ st.1.pessoas_na_zona then st
    else (⟨insert t.track_id st.1.pessoas_na_zona, st.1.alerts ++ [t.track_id]⟩,
          st.2 ++ [tocar_alarme (play t.track_id)])
  else st

/-- One frame's pass over the track list, audio outcomes included. -/
def processFrameAudio (z : Zone) (play : ℕ → Except String Unit)
    (st : LoopState × List String) (tracks : List Track) : LoopState × List String :=
  tracks.foldl (processTrackAudio z play) st

/-- The stream processed with audio outcomes included. -/
def processStreamAudio (z : Zone) (play : ℕ → Except String Unit)
    (st : LoopState × List String) (frames : List (List Track)) : LoopState × List String :=
  frames.foldl (processFrameAudio z play) st

/-- A raw detection from the YOLO results (source lines 90-94): the
integer box corners, the confidence (`box.conf[0].item()`, a float
modelled as its exact rational value) and the integer class index. -/
structure RawDet where
  x1 : ℤ
  y1 : ℤ
  x2 : ℤ
  y2 : ℤ
  conf : ℚ
  cls : ℕ
  deriving DecidableEq

/-- A detection as appended to the `detections` list (source line 96):
`([x1, y1, x2 - x1, y2 - y1], conf, cls, frame)` — the frame reference
is not modelled. -/
structure Det where
  x : ℤ
  y : ℤ
  w : ℤ
  h : ℤ
  conf : ℚ
  cls : ℕ
  deriving DecidableEq

/-- The tuple built for one raw detection (source line 96). -/
def toDet (d : RawDet) : Det :=
  ⟨d.x1, d.y1, d.x2 - d.x1, d.y2 - d.y1, d.conf, d.cls⟩

/-- The detection-building loop (source lines 89-96): for each raw box,
append it iff `cls == 0 and conf > 0.4`.  Python's float literal `0.4`
is modelled by the rational `2/5`. -/
def buildDetections (raws : List RawDet) : List Det :=
  raws.filterMap (fun d => if d.cls = 0 ∧ (2 : ℚ)/5 < d.conf then some (toDet d) else none)

/-! ## Helper lemmas -/

lemma fdiv_two_of_nonneg : ∀ a : ℤ, 0 ≤ a → Int.fdiv a 2 = a / 2
  | Int.ofNat 0, _ => rfl
  | Int.ofNat (_ + 1), _ => rfl

/-- Key invariant tying dispatches to the ledger: an identity has been
dispatched exactly once if it is in `pessoas_na_zona`, and never
otherwise. -/
def alertInv (st : LoopState) (id : ℕ) : Prop :=
  st.alerts.count id = if id ∈ st.pessoas_na_zona then 1 else 0

lemma alertInv_initState (id : ℕ) : alertInv initState id := by
  simp [alertInv, initState]

lemma alertInv_processTrack (z : Zone) (st : LoopState) (t : Track) (id : ℕ)
    (h : alertInv st id) : alertInv (processTrack z st t) id := by
  unfold alertInv processTrack at *
  split
  · exact h
  · split
    · split
      · exact h
      · rcases eq_or_ne t.track_id id with rfl | hne
        · simp_all [List.count_append]
        · simp_all [List.count_append, Finset.mem_insert, hne.symm,
            List.count_cons, List.count_nil]
    · exact h

lemma alertInv_processFrame (z : Zone) (st : LoopState) (ts : List Track) (id : ℕ)
    (h : alertInv st id) : alertInv (processFrame z st ts) id := by
  induction ts generalizing st with
  | nil => exact h
  | cons t rest ih => exact ih _ (alertInv_processTrack z st t id h)

lemma alertInv_processStream (z : Zone) (st : LoopState) (frames : List (List Track))
    (id : ℕ) (h : alertInv st id) : alertInv (processStream z st frames) id := by
  induction frames generalizing st with
  | nil => exact h
  | cons f rest ih => exact ih _ (alertInv_processFrame z st f id h)

lemma ledger_subset_processTrack (z : Zone) (st : LoopState) (t : Track) :
    st.pessoas_na_zona ⊆ (processTrack z st t).pessoas_na_zona := by
  unfold processTrack
  split
  · exact Finset.Subset.refl _
  · split
    · split
      · exact Finset.Subset.refl _
      · exact Finset.subset_insert _ _
    · exact Finset.Subset.refl _

lemma ledger_subset_processFrame (z : Zone) (st : LoopState) (ts : List Track) :
    st.pessoas_na_zona ⊆ (processFrame z st ts).pessoas_na_zona := by
  induction ts generalizing st with
  | nil => exact Finset.Subset.refl _
  | cons t rest ih =>
      exact (ledger_subset_processTrack z st t).trans (ih (processTrack z st t))

lemma ledger_subset_processStream (z : Zone) (st : LoopState)
    (frames : List (List Track)) :
    st.pessoas_na_zona ⊆ (processStream z st frames).pessoas_na_zona := by
  induction frames generalizing st with
  | nil => exact Finset.Subset.refl _
  | cons f rest ih =>
      exact (ledger_subset_processFrame z st f).trans (ih (processFrame z st f))

lemma mem_ledger_processTrack (z : Zone) (st : LoopState) (t : Track)
    (hc : t.confirmed = true) (hz : in_zone t.box z = true) :
    t.track_id ∈ (processTrack z st t).pessoas_na_zona := by
  by_cases hmem : t.track_id ∈ st.pessoas_na_zona <;>
    simp [processTrack, hc, hz, hmem]

lemma mem_ledger_processFrame (z : Zone) (st : LoopState) (ts : List Track)
    (t : Track) (ht : t ∈ ts) (hc : t.confirmed = true) (hz : in_zone t.box z = true) :
    t.track_id ∈ (processFrame z st ts).pessoas_na_zona := by
  induction ts generalizing st with
  | nil => cases ht
  | cons u rest ih =>
      rcases List.mem_cons.mp ht with rfl | hmem
      · exact ledger_subset_processFrame z _ rest
          (mem_ledger_processTrack z st t hc hz)
      · exact ih (processTrack z st u) hmem

lemma mem_ledger_processStream (z : Zone) (st : LoopState)
    (frames : List (List Track)) (f : List Track) (t : Track)
    (hf : f ∈ frames) (ht : t ∈ f) (hc : t.confirmed = true)
    (hz : in_zone t.box z = true) :
    t.track_id ∈ (processStream z st frames).pessoas_na_zona := by
  induction frames generalizing st with
  | nil => cases hf
  | cons g rest ih =>
      rcases List.mem_cons.mp hf with rfl | hmem
      · exact ledger_subset_processStream z _ rest
          (mem_ledger_processFrame z st f t ht hc hz)
      · exact ih (processFrame z st g) hmem

lemma processTrackAudio_fst (z : Zone) (play : ℕ → Except String Unit)
    (p : LoopState × List String) (t : Track) :
    (processTrackAudio z play p t).1 = processTrack z p.1 t := by
  unfold processTrackAudio processTrack
  split
  · rfl
  · split
    · split <;> rfl
    · rfl

lemma processFrameAudio_fst (z : Zone) (play : ℕ → Except String Unit)
    (p : LoopState × List String) (ts : List Track) :
    (processFrameAudio z play p ts).1 = processFrame z p.1 ts := by
  induction ts generalizing p with
  | nil => rfl
  | cons t rest ih =>
      show (processFrameAudio z play (processTrackAudio z play p t) rest).1 = _
      rw [ih, processTrackAudio_fst]
      rfl

lemma processStreamAudio_fst (z : Zone) (play : ℕ → Except String Unit)
    (p : LoopState × List String) (frames : List (List Track)) :
    (processStreamAudio z play p frames).1 = processStream z p.1 frames := by
  induction frames generalizing p with
  | nil => rfl
  | cons f rest ih =>
      show (processStreamAudio z play (processFrameAudio z play p f) rest).1 = _
      rw [ih, processFrameAudio_fst]
      rfl

lemma processTrackAudio_len (z : Zone) (play : ℕ → Except String Unit)
    (p : LoopState × List String) (t : Track) :
    (processTrackAudio z play p t).2.length + p.1.alerts.length =
      (processTrackAudio z play p t).1.alerts.length + p.2.length := by
  unfold processTrackAudio
  split
  · omega
  · split
    · split
      · omega
      · simp only [List.length_append, List.length_cons, List.length_nil]
        omega
    · omega

lemma processFrameAudio_len (z : Zone) (play : ℕ → Except String Unit)
    (p : LoopState × List String) (ts : List Track) :
    (processFrameAudio z play p ts).2.length + p.1.alerts.length =
      (processFrameAudio z play p ts).1.alerts.length + p.2.length := by
  induction ts generalizing p with
  | nil => exact Nat.add_comm _ _
  | cons t rest ih =>
      have h1 := processTrackAudio_len z play p t
      have h2 := ih (processTrackAudio z play p t)
      show (processFrameAudio z play (processTrackAudio z play p t) rest).2.length + _ =
        (processFrameAudio z play (processTrackAudio z play p t) rest).1.alerts.length + _
      omega

lemma processStreamAudio_len (z : Zone) (play : ℕ → Except String Unit)
    (p : LoopState × List String) (frames : List (List Track)) :
    (processStreamAudio z play p frames).2.length + p.1.alerts.length =
      (processStreamAudio z play p frames).1.alerts.length + p.2.length := by
  induction frames generalizing p with
  | nil => exact Nat.add_comm _ _
  | cons f rest ih =>
      have h1 := processFrameAudio_len z play p f
      have h2 := ih (processFrameAudio z play p f)
      show (processStreamAudio z play (processFrameAudio z play p f) rest).2.length + _ =
        (processStreamAudio z play (processFrameAudio z play p f) rest).1.alerts.length + _
      omega

lemma toDet_injective : Function.Injective toDet := by
  intro a b h
  cases a
  cases b
  simp only [toDet, Det.mk.injEq] at h
  obtain ⟨h1, h2, h3, h4, h5, h6⟩ := h
  simp only [RawDet.mk.injEq]
  refine ⟨h1, h2, by omega, by omega, h5, h6⟩

/-! ## Claim theorems -/

/-- **C1**: over an entire stream the alert dispatch is invoked at most
once per track identity; and an identity that is, on at least one frame,
reported as a confirmed track with in-zone centroid (e.g. in-zone for 10
consecutive frames, or entering, exiting and re-entering) is dispatched
exactly once — never a second time. -/
theorem alert_dispatched_at_most_once (z : Zone) (frames : List (List Track)) (id : ℕ) :
    (processStream z initState frames).alerts.count id ≤ 1 ∧
    ((∃ f ∈ frames, ∃ t ∈ f, t.confirmed = true ∧ t.track_id = id ∧
        in_zone t.box z = true) →
      (processStream z initState frames).alerts.count id = 1) := by
  have hinv := alertInv_processStream z initState frames id (alertInv_initState id)
  unfold alertInv at hinv
  constructor
  · rw [hinv]
    split <;> omega
  · rintro ⟨f, hf, t, ht, hc, rfl, hz⟩
    rw [hinv, if_pos (mem_ledger_processStream z initState frames f t hf ht hc hz)]

/-- Witness for C1 on a concrete re-entry stream: identity 1 is in-zone
on frames 1, 2, 5, 6 (zone `(10,10)-(90,90)`, in-zone box centred at
`(50,50)`, out-of-zone box centred at `(2,2)`): exactly one dispatch. -/
theorem alert_dispatched_at_most_once_witness :
    (∃ f ∈ [[Track.mk true 1 ⟨40, 40, 60, 60⟩], [Track.mk true 1 ⟨40, 40, 60, 60⟩],
            [Track.mk true 1 ⟨0, 0, 4, 4⟩], [Track.mk true 1 ⟨0, 0, 4, 4⟩],
            [Track.mk true 1 ⟨40, 40, 60, 60⟩], [Track.mk true 1 ⟨40, 40, 60, 60⟩]],
      ∃ t ∈ f, t.confirmed = true ∧ t.track_id = 1 ∧
        in_zone t.box ⟨10, 10, 90, 90⟩ = true) ∧
    (processStream ⟨10, 10, 90, 90⟩ initState
      [[Track.mk true 1 ⟨40, 40, 60, 60⟩], [Track.mk true 1 ⟨40, 40, 60, 60⟩],
       [Track.mk true 1 ⟨0, 0, 4, 4⟩], [Track.mk true 1 ⟨0, 0, 4, 4⟩],
       [Track.mk true 1 ⟨40, 40, 60, 60⟩],
       [Track.mk true 1 ⟨40, 40, 60, 60⟩]]).alerts.count 1 = 1 :=
  ⟨by decide,
   (alert_dispatched_at_most_once ⟨10, 10, 90, 90⟩
      [[Track.mk true 1 ⟨40, 40, 60, 60⟩], [Track.mk true 1 ⟨40, 40, 60, 60⟩],
       [Track.mk true 1 ⟨0, 0, 4, 4⟩], [Track.mk true 1 ⟨0, 0, 4, 4⟩],
       [Track.mk true 1 ⟨40, 40, 60, 60⟩], [Track.mk true 1 ⟨40, 40, 60, 60⟩]] 1).2
     (by decide)⟩

/-- **C2**: the per-track alert decision: out of zone → no alert, ledger
unchanged; in zone and already in the ledger → no alert, ledger
unchanged; in zone and not in the ledger → exactly one dispatch of that
id and exactly that id inserted into the ledger. -/
theorem should_alert_contract (z : Zone) (st : LoopState) (t : Track)
    (hc : t.confirmed = true) :
    (in_zone t.box z = false → processTrack z st t = st) ∧
    (in_zone t.box z = true → t.track_id ∈ st.pessoas_na_zona →
      processTrack z st t = st) ∧
    (in_zone t.box z = true → t.track_id ∉ st.pessoas_na_zona →
      processTrack z st t =
        ⟨insert t.track_id st.pessoas_na_zona, st.alerts ++ [t.track_id]⟩) := by
  refine ⟨fun hz => ?_, fun hz hmem => ?_, fun hz hmem => ?_⟩ <;>
    simp [processTrack, hc, hz, *]

/-- Witness for C2 at a concrete in-zone, not-yet-alerted track:
the id is inserted and dispatched. -/
theorem should_alert_contract_witness :
    (in_zone (⟨40, 40, 60, 60⟩ : Box) ⟨10, 10, 90, 90⟩ = true ∧ (7 : ℕ) ∉ ({3} : Finset ℕ)) ∧
    processTrack ⟨10, 10, 90, 90⟩ ⟨{3}, [3]⟩ (Track.mk true 7 ⟨40, 40, 60, 60⟩) =
      ⟨insert 7 {3}, [3] ++ [7]⟩ :=
  ⟨⟨by decide, by decide⟩,
   (should_alert_contract ⟨10, 10, 90, 90⟩ ⟨{3}, [3]⟩
      (Track.mk true 7 ⟨40, 40, 60, 60⟩) rfl).2.2 (by decide) (by decide)⟩

/-- **C3**: for boxes with `left ≤ right` and `top ≤ bottom` the zone
predicate uses the centroid `(left + ⌊(right-left)/2⌋, top +
⌊(bottom-top)/2⌋)` and holds iff the centroid is strictly inside the
zone rectangle; boundary centroids `(10,50)`, `(90,50)`, `(50,10)`,
`(50,90)` of zone `(10,10)-(90,90)` are not in-zone, `(50,50)` is. -/
theorem zone_predicate_strict (b : Box) (z : Zone)
    (hx : b.left ≤ b.right) (hy : b.top ≤ b.bottom) :
    (centro_x b = b.left + (b.right - b.left) / 2 ∧
     centro_y b = b.top + (b.bottom - b.top) / 2 ∧
     (in_zone b z = true ↔
       (z.x1 < centro_x b ∧ centro_x b < z.x2 ∧
        z.y1 < centro_y b ∧ centro_y b < z.y2))) ∧
    (in_zone ⟨0, 40, 20, 60⟩ ⟨10, 10, 90, 90⟩ = false) ∧
    (in_zone ⟨80, 40, 100, 60⟩ ⟨10, 10, 90, 90⟩ = false) ∧
    (in_zone ⟨40, 0, 60, 20⟩ ⟨10, 10, 90, 90⟩ = false) ∧
    (in_zone ⟨40, 80, 60, 100⟩ ⟨10, 10, 90, 90⟩ = false) ∧
    (in_zone ⟨40, 40, 60, 60⟩ ⟨10, 10, 90, 90⟩ = true) := by
  refine ⟨⟨?_, ?_, ?_⟩, by decide, by decide, by decide, by decide, by decide⟩
  · unfold centro_x
    rw [fdiv_two_of_nonneg _ (by omega)]
  · unfold centro_y
    rw [fdiv_two_of_nonneg _ (by omega)]
  · simp [in_zone, and_assoc]

/-- Witness for C3 at the in-zone box `(40,40,60,60)`. -/
theorem zone_predicate_strict_witness :
    in_zone ⟨40, 40, 60, 60⟩ ⟨10, 10, 90, 90⟩ = true :=
  (zone_predicate_strict ⟨40, 40, 60, 60⟩ ⟨10, 10, 90, 90⟩
    (by decide) (by decide)).2.2.2.2.2

/-- **C4**: the ledger starts empty and grows monotonically: each frame
step and each stream suffix only ever enlarge it, and an id once
inserted stays for the rest of the stream. -/
theorem ledger_monotone (z : Zone) (st : LoopState) (ts : List Track)
    (frames : List (List Track)) (id : ℕ) :
    initState.pessoas_na_zona = ∅ ∧
    st.pessoas_na_zona ⊆ (processFrame z st ts).pessoas_na_zona ∧
    st.pessoas_na_zona ⊆ (processStream z st frames).pessoas_na_zona ∧
    (id ∈ st.pessoas_na_zona → id ∈ (processStream z st frames).pessoas_na_zona) :=
  ⟨rfl, ledger_subset_processFrame z st ts, ledger_subset_processStream z st frames,
   fun h => ledger_subset_processStream z st frames h⟩

/-- Witness for C4: id 5, already in the ledger, survives a two-frame
stream in which it never re-qualifies. -/
theorem ledger_monotone_witness :
    (5 : ℕ) ∈ ({5} : Finset ℕ) ∧
    5 ∈ (processStream ⟨10, 10, 90, 90⟩ ⟨{5}, [5]⟩
      [[Track.mk true 2 ⟨40, 40, 60, 60⟩], []]).pessoas_na_zona :=
  ⟨by decide,
   (ledger_monotone ⟨10, 10, 90, 90⟩ ⟨{5}, [5]⟩ []
      [[Track.mk true 2 ⟨40, 40, 60, 60⟩], []] 5).2.2.2 (by decide)⟩

/-- **C5**: an unconfirmed track is skipped entirely: the loop state is
unchanged (no alert, no ledger insertion), and the outcome does not
depend on the track's box at all — in particular an in-zone centroid
changes nothing. -/
theorem tentative_excluded (z : Zone) (st : LoopState) (t : Track)
    (hc : t.confirmed = false) :
    processTrack z st t = st ∧
    (∀ b : Box, processTrack z st { t with box := b } = st) :=
  ⟨by simp [processTrack, hc], fun b => by simp [processTrack, hc]⟩

/-- Witness for C5: an unconfirmed track whose centroid `(50,50)` is
inside zone `(10,10)-(90,90)` leaves the state untouched. -/
theorem tentative_excluded_witness :
    processTrack ⟨10, 10, 90, 90⟩ ⟨∅, []⟩ (Track.mk false 4 ⟨40, 40, 60, 60⟩) = ⟨∅, []⟩ :=
  (tentative_excluded ⟨10, 10, 90, 90⟩ ⟨∅, []⟩ (Track.mk false 4 ⟨40, 40, 60, 60⟩) rfl).1

/-- **C6**: a raw detection reaches the detection set passed to the
tracker iff its class is the person class 0 and its confidence is
strictly above `0.4`; confidence exactly `0.4` or a non-person class is
excluded. -/
theorem detection_filter_spec (raws : List RawDet) (d : RawDet) (hd : d ∈ raws) :
    (toDet d ∈ buildDetections raws ↔ (d.cls = 0 ∧ (2 : ℚ)/5 < d.conf)) ∧
    (d.conf = 2/5 → toDet d ∉ buildDetections raws) ∧
    (d.cls ≠ 0 → toDet d ∉ buildDetections raws) := by
  have main : toDet d ∈ buildDetections raws ↔ (d.cls = 0 ∧ (2 : ℚ)/5 < d.conf) := by
    unfold buildDetections
    rw [List.mem_filterMap]
    constructor
    · rintro ⟨a, _, heq⟩
      by_cases hp : a.cls = 0 ∧ (2 : ℚ)/5 < a.conf
      · rw [if_pos hp] at heq
        obtain rfl : a = d := toDet_injective (Option.some.inj heq)
        exact hp
      · rw [if_neg hp] at heq
        cases heq
    · intro hp
      exact ⟨d, hd, by rw [if_pos hp]⟩
  refine ⟨main, fun hc hmem => ?_, fun hc hmem => ?_⟩
  · have h := (main.mp hmem).2
    rw [hc] at h
    exact absurd h (lt_irrefl _)
  · exact hc (main.mp hmem).1

/-- Witness for C6: in a set of three raw detections, the person with
confidence exactly `2/5` is excluded from the built detection set. -/
theorem detection_filter_spec_witness :
    (RawDet.mk 0 0 10 10 (2/5) 0) ∈
      [RawDet.mk 0 0 10 10 (9/10) 0, RawDet.mk 0 0 10 10 (2/5) 0,
       RawDet.mk 5 5 20 20 (9/10) 2] ∧
    toDet (RawDet.mk 0 0 10 10 (2/5) 0) ∉
      buildDetections [RawDet.mk 0 0 10 10 (9/10) 0, RawDet.mk 0 0 10 10 (2/5) 0,
        RawDet.mk 5 5 20 20 (9/10) 2] :=
  ⟨List.mem_cons_of_mem _ (List.mem_cons_self _ _),
   (detection_filter_spec
      [RawDet.mk 0 0 10 10 (9/10) 0, RawDet.mk 0 0 10 10 (2/5) 0,
       RawDet.mk 5 5 20 20 (9/10) 2]
      (RawDet.mk 0 0 10 10 (2/5) 0)
      (List.mem_cons_of_mem _ (List.mem_cons_self _ _))).2.1 rfl⟩

/-- **C7 counterexample**: the source never checks whether the output
`VideoWriter` opened; with the capture open but the writer failed, the
run does not abort at startup, the loop is entered, a frame is written
(the `out.write` call happens regardless), an alert fires, and the whole
run is indistinguishable from one with a healthy writer — refuting
"processing does not proceed as if the sink were healthy". -/
theorem sink_failure_not_fatal_cex :
    (processar_video true false ⟨10, 10, 90, 90⟩
      [⟨[Track.mk true 1 ⟨40, 40, 60, 60⟩], false⟩]).startupFailed = false ∧
    (processar_video true false ⟨10, 10, 90, 90⟩
      [⟨[Track.mk true 1 ⟨40, 40, 60, 60⟩], false⟩]).framesWritten = 1 ∧
    (processar_video true false ⟨10, 10, 90, 90⟩
      [⟨[Track.mk true 1 ⟨40, 40, 60, 60⟩], false⟩]).finalState.alerts = [1] ∧
    processar_video true false ⟨10, 10, 90, 90⟩
      [⟨[Track.mk true 1 ⟨40, 40, 60, 60⟩], false⟩] =
      processar_video true true ⟨10, 10, 90, 90⟩
        [⟨[Track.mk true 1 ⟨40, 40, 60, 60⟩], false⟩] := by
  refine ⟨rfl, rfl, by decide, rfl⟩

/-- **C7 (amended)**: the writer's open status is never consulted: the
run is identical whether or not the sink opened, and sink failure never
causes a startup abort — only the frame source's open status is checked. -/
theorem sink_health_ignored (capOpened : Bool) (z : Zone) (frames : List Frame) :
    processar_video capOpened false z frames = processar_video capOpened true z frames ∧
    (processar_video true false z frames).startupFailed = false :=
  ⟨rfl, rfl⟩

/-- **C8**: a failing alarm playback is caught inside `tocar_alarme` and
turned into a log line (no exception escapes — the function returns
normally in both branches); for any playback-outcome assignment the core
state (ledger and dispatch log) after the stream equals that of the pure
run, so a failure neither stops later frames nor removes the triggering
identity from the ledger; and exactly one alarm-thread log entry is
produced per dispatch. -/
theorem alert_failure_contained (z : Zone) (play : ℕ → Except String Unit)
    (st : LoopState) (logs : List String) (frames : List (List Track)) (e : String) :
    tocar_alarme (Except.error e) = "Erro ao tocar o alarme: " ++ e ∧
    (processStreamAudio z play (st, logs) frames).1 = processStream z st frames ∧
    (processStreamAudio z play (st, logs) frames).2.length + st.alerts.length =
      (processStream z st frames).alerts.length + logs.length := by
  refine ⟨rfl, processStreamAudio_fst z play (st, logs) frames, ?_⟩
  have h := processStreamAudio_len z play (st, logs) frames
  rw [processStreamAudio_fst] at h
  exact h

/-- **C9**: if the capture fails to open, `processar_video` returns
before the frame loop: no frame is written, the ledger stays at its
initial empty value and no alert is ever dispatched. -/
theorem source_failure_aborts (writerOpened : Bool) (z : Zone) (frames : List Frame) :
    processar_video false writerOpened z frames = ⟨true, 0, initState⟩ ∧
    (processar_video false writerOpened z frames).finalState.pessoas_na_zona = ∅ ∧
    (processar_video false writerOpened z frames).finalState.alerts = [] ∧
    (processar_video false writerOpened z frames).framesWritten = 0 :=
  ⟨rfl, rfl, rfl, rfl⟩

/-- **C10**: every decoded frame — including the one during which the
quit key is pressed, since `imshow`/`out.write` precede the key check —
is fully processed and written: the sink receives exactly one frame per
decoded frame, and the final core state is that of processing exactly
the decoded frames. -/
theorem write_before_stop_check (z : Zone) (st : LoopState) (frames : List Frame) :
    (frameLoop z st frames).2 = (decodedFrames frames).length ∧
    (frameLoop z st frames).1 =
      processStream z st ((decodedFrames frames).map Frame.tracks) := by
  induction frames generalizing st with
  | nil => exact ⟨rfl, rfl⟩
  | cons f rest ih =>
      cases hq : f.quit with
      | true =>
          simp only [frameLoop, decodedFrames, hq, if_true]
          exact ⟨rfl, rfl⟩
      | false =>
          obtain ⟨h1, h2⟩ := ih (processFrame z st f.tracks)
          simp only [frameLoop, decodedFrames, hq, Bool.false_eq_true, if_false,
            List.map_cons, List.length_cons]
          exact ⟨by rw [h1], h2⟩

end VP01
